import Mathlib

set_option maxRecDepth 100000

/-!
# Verification of the AstPool → LpBox codemod scripts

Shallow embedding of the three Python migration scripts
(src/scripts/astpool_to_lpbox.py, src/scripts/fix_gen_signatures.py,
src/scripts/fix_imports.py).  Each script transforms the text of a file
by an ordered sequence of regular-expression substitutions
(Python re.sub / str.replace semantics: leftmost, non-overlapping,
single left-to-right scan, the scan continues after the end of each
match and never revisits replacement text; word boundaries are judged
against the original characters surrounding the match position).

Text is a list of characters.  Each concrete regular expression of the
scripts is hand-compiled into a deterministic matcher; the generic
driver mirrors re.sub.  All inputs of interest are ASCII, so the
Python character classes are embedded by their ASCII meaning.
-/

/-- Python regex word character (ASCII fragment): [a-zA-Z0-9_]. -/
def isWordChar (c : Char) : Bool := c.isAlphanum || c == '_'

/-- Python regex whitespace (ASCII fragment): space, tab, newline, CR, VT, FF. -/
def isPySpace (c : Char) : Bool :=
  c == ' ' || c == '\t' || c == '\n' || c == '\r' || c == '\x0b' || c == '\x0c'

/-- Drop a literal pattern from the front of a text; some rest on success. -/
def dropLit : List Char → List Char → Option (List Char)
  | [], l => some l
  | _ :: _, [] => none
  | p :: ps, c :: cs => if p == c then dropLit ps cs else none

/-- Python substring containment, as in the expression pat in content. -/
def pyIn (pat : List Char) : List Char → Bool
  | [] => pat.isEmpty
  | c :: cs => (dropLit pat (c :: cs)).isSome || pyIn pat cs

/--
A matcher is one hand-compiled regular expression: given the character
just before the current position (none at the start of the text) and
the text from the current position on, it returns none when the regex
does not match here, or the replacement text together with the rest of
the input after the matched span.
-/
abbrev Matcher := Option Char → List Char → Option (List Char × List Char)

/-- The original character immediately before the suffix rest of l. -/
def lastBefore (l rest : List Char) : Option Char :=
  (l.take (l.length - rest.length)).getLast?

/--
Driver for re.sub(pattern, repl, text): scan left to right, replace
each non-overlapping leftmost match, continue after the match.  The
fuel argument (initially the length of the text) makes the recursion
structural; every matcher of this file consumes at least one character
on success, and a (never occurring) non-consuming match is treated as
no match.
-/
def runSubAux (m : Matcher) : Nat → Option Char → List Char → List Char
  | 0, _, l => l
  | _ + 1, _, [] => []
  | fuel + 1, prev, c :: cs =>
    match m prev (c :: cs) with
    | some (repl, rest) =>
      if rest.length < (c :: cs).length then
        repl ++ runSubAux m fuel (lastBefore (c :: cs) rest) rest
      else c :: runSubAux m fuel (some c) cs
    | none => c :: runSubAux m fuel (some c) cs

/-- re.sub over a whole text. -/
def runSub (m : Matcher) (l : List Char) : List Char :=
  runSubAux m l.length none l

/-- An ordered sequence of re.sub calls, applied left to right: each
substitution's output is the next one's input. -/
def runSubs (ms : List Matcher) (t : List Char) : List Char :=
  ms.foldl (fun acc m => runSub m acc) t

/-- re.sub with count 1, and str.replace with count 1: replace only the
leftmost match, copy the rest verbatim. -/
def runSubOnceFrom (m : Matcher) : Option Char → List Char → List Char
  | _, [] => []
  | prev, c :: cs =>
    match m prev (c :: cs) with
    | some (repl, rest) =>
      if rest.length < (c :: cs).length then repl ++ rest
      else c :: runSubOnceFrom m (some c) cs
    | none => c :: runSubOnceFrom m (some c) cs

/-- Does the pattern match anywhere in the text (same scan as runSub)? -/
def hasMatchFrom (m : Matcher) : Option Char → List Char → Bool
  | _, [] => false
  | prev, c :: cs => (m prev (c :: cs)).isSome || hasMatchFrom m (some c) cs

/-- Number of non-overlapping leftmost occurrences of a literal pattern. -/
def countOccAux (pat : List Char) : Nat → List Char → Nat
  | 0, _ => 0
  | _ + 1, [] => 0
  | fuel + 1, c :: cs =>
    match dropLit pat (c :: cs) with
    | some rest =>
      if rest.length < (c :: cs).length then 1 + countOccAux pat fuel rest
      else countOccAux pat fuel cs
    | none => countOccAux pat fuel cs

/-- Number of non-overlapping occurrences of a literal pattern in a text. -/
def countOcc (pat l : List Char) : Nat := countOccAux pat l.length l

/-- Word boundary test between the character before the pattern and the
pattern's first character, when that first character is a word character. -/
def boundaryBefore (prev : Option Char) : Bool :=
  match prev with
  | none => true
  | some c => !isWordChar c

/-- Word boundary test after a match whose last character is a word
character: the next character must be absent or a non-word character. -/
def boundaryAfterAt (rest : List Char) : Bool :=
  match rest with
  | [] => true
  | c :: _ => !isWordChar c

/-- Matcher for a plain literal pattern with a fixed replacement. -/
def mLit (pat repl : List Char) : Matcher := fun _ l =>
  match dropLit pat l with
  | some rest => some (repl, rest)
  | none => none

/-- Every occurrence of a pattern (with word-character edges, such as
ExprId) in the text is a whole identifier: both edges lie on word
boundaries.  Used to state claims about word-boundary discipline. -/
def wholeIdentOnlyAux (pat : List Char) : Option Char → List Char → Bool
  | _, [] => true
  | prev, c :: cs =>
    (match dropLit pat (c :: cs) with
     | some rest => boundaryBefore prev && boundaryAfterAt rest
     | none => true) && wholeIdentOnlyAux pat (some c) cs

/-- Every occurrence of pat in l is word-bounded on both sides. -/
def wholeIdentOnly (pat l : List Char) : Bool :=
  wholeIdentOnlyAux pat none l

/-!
## Pass 1: src/scripts/astpool_to_lpbox.py, process_file

The content transformation of process_file (lines 29-79), rule by rule
in source order.  File names and I/O are modeled separately below.
-/

namespace AstpoolToLpbox

/-- Line 30: re.sub of word-bounded ExprId by Expr. -/
def mExprId : Matcher := fun prev l =>
  if boundaryBefore prev then
    match dropLit "ExprId".toList l with
    | some rest => if boundaryAfterAt rest then some ("Expr".toList, rest) else none
    | none => none
  else none

/-- Line 31: re.sub of word-bounded StmtId by Stmt. -/
def mStmtId : Matcher := fun prev l =>
  if boundaryBefore prev then
    match dropLit "StmtId".toList l with
    | some rest => if boundaryAfterAt rest then some ("Stmt".toList, rest) else none
    | none => none
  else none

/--
Line 43: comma, optional whitespace, optional mut plus whitespace,
then the literal pool: AstPool with optional whitespace after the
colon; the whole match is deleted.  The pattern has no trailing word
boundary.  The optional mut group is deterministic: when mut plus at
least one whitespace character is present it is consumed, otherwise
pool: must follow directly (regex backtracking agrees, since pool
cannot also start with mut).
-/
def mPoolParam : Matcher := fun _ l =>
  match l with
  | ',' :: r0 =>
    let r1 := r0.dropWhile isPySpace
    let r2 :=
      match dropLit "mut".toList r1 with
      | some rm =>
        let rs := rm.dropWhile isPySpace
        if rs.length < rm.length then rs else r1
      | none => r1
    match dropLit "pool:".toList r2 with
    | some r3 =>
      match dropLit "AstPool".toList (r3.dropWhile isPySpace) with
      | some r5 => some ([], r5)
      | none => none
    | none => none
  | _ => none

/-- Line 44: open paren, pool: AstPool, comma; replaced by the open paren. -/
def mParenPoolComma : Matcher := fun _ l =>
  match dropLit "(pool:".toList l with
  | some r1 =>
    match dropLit "AstPool,".toList (r1.dropWhile isPySpace) with
    | some r2 => some ("(".toList, r2)
    | none => none
  | none => none

/-- Line 45: open paren, pool: AstPool, close paren; replaced by empty parens. -/
def mParenPoolClose : Matcher := fun _ l =>
  match dropLit "(pool:".toList l with
  | some r1 =>
    match dropLit "AstPool)".toList (r1.dropWhile isPySpace) with
    | some r2 => some ("()".toList, r2)
    | none => none
  | none => none

/-- Lines 49-50: arrow, optional whitespace, tuple of the renamed node
type with AstPool; replaced by an arrow returning the node type alone. -/
def mRetPair (tyname : List Char) : Matcher := fun _ l =>
  match dropLit "->".toList l with
  | some r1 =>
    match dropLit ("(".toList ++ tyname ++ ",".toList) (r1.dropWhile isPySpace) with
    | some r2 =>
      match dropLit "AstPool)".toList (r2.dropWhile isPySpace) with
      | some r3 => some ("-> ".toList ++ tyname, r3)
      | none => none
    | none => none
  | none => none

/-- Lines 54-56: pool.fname of a single word argument, replaced by the
argument.  The greedy word run must be followed directly by the close
paren (regex backtracking cannot shorten it, since a shorter run is
followed by a word character). -/
def mPoolCall (fname : List Char) : Matcher := fun _ l =>
  match dropLit ("pool.".toList ++ fname ++ "(".toList) l with
  | some r1 =>
    let w := r1.takeWhile isWordChar
    match r1.drop w.length with
    | ')' :: r2 => if w.isEmpty then none else some (w, r2)
    | _ => none
  | none => none

/--
Line 60: pool.alloc_expr of two arguments followed by a question mark,
rewritten into an Expr::new constructor call.  The first capture is the
run of non-comma characters (nonempty) before the first comma, the
second the run of non-close-paren characters before the next close
paren.  Greedy whitespace after the comma backtracks one character
when the whole second segment is whitespace, so the capture keeps only
its last character in that case (exact re.sub behavior).
-/
def mAllocExpr : Matcher := fun _ l =>
  match dropLit "pool.alloc_expr(".toList l with
  | some r1 =>
    let c1 := r1.takeWhile (fun c => !(c == ','))
    if c1.isEmpty then none else
    match r1.drop c1.length with
    | ',' :: r2 =>
      let seg := r2.takeWhile (fun c => !(c == ')'))
      let c2 :=
        match (seg.dropWhile isPySpace), seg.reverse with
        | [], last :: _ => [last]
        | [], [] => []
        | w, _ => w
      if c2.isEmpty then none else
      match r2.drop seg.length with
      | ')' :: '?' :: r3 =>
        some ("Expr::new(".toList ++ c1 ++ ", ".toList ++ c2 ++ ")".toList, r3)
      | _ => none
    | _ => none
  | none => none

/-- The literal import statement use lp_pool::LpBox (line 63). -/
def impLit : List Char := "use lp_pool::LpBox".toList

/-- The wrapper-type name LpBox (line 63). -/
def lpboxLit : List Char := "LpBox".toList

/-- The anchor line for import insertion (line 65). -/
def externLit : List Char := "extern crate alloc;".toList

/-- Replacement inserting the import after the anchor (line 66). -/
def externRepl : List Char := "extern crate alloc;\nuse lp_pool::LpBox;".toList

/-- Newline-use fallback anchor (line 67). -/
def nlUseLit : List Char := "\nuse ".toList

/-- Replacement inserting the import before the first use statement
that is preceded by a newline (line 69). -/
def nlUseRepl : List Char := "\nuse lp_pool::LpBox;\nuse ".toList

/-- The fourteen unconditional substitutions of process_file before
the import directives (lines 30-60), in source order. -/
def rulesList : List Matcher :=
  [ mExprId
  , mStmtId
  , mLit "Box<Expr>".toList "LpBox<Expr>".toList
  , mLit "Box<Stmt>".toList "LpBox<Stmt>".toList
  , mLit "Box::new(".toList "LpBox::try_new(".toList
  , mPoolParam
  , mParenPoolComma
  , mParenPoolClose
  , mRetPair "Expr".toList
  , mRetPair "Stmt".toList
  , mPoolCall "expr".toList
  , mPoolCall "expr_mut".toList
  , mPoolCall "stmt".toList
  , mAllocExpr ]

/-- Lines 30-60 of process_file applied in order. -/
def rulesStage (t : List Char) : List Char := runSubs rulesList t

/--
Lines 62-69: if the rules changed the text, the literal import is
absent, and LpBox occurs, insert the import after the first
extern crate alloc; anchor if present, else before the first use
statement that is preceded by a newline, else do nothing.
-/
def importAddStage (original content : List Char) : List Char :=
  if (!(content == original)) && !(pyIn impLit content) && pyIn lpboxLit content then
    if pyIn externLit content then
      runSubOnceFrom (mLit externLit externRepl) none content
    else if pyIn nlUseLit content then
      runSubOnceFrom (mLit nlUseLit nlUseRepl) none content
    else content
  else content

/-- The Box import line deleted by line 73. -/
def boxImportLine : List Char := "use alloc::boxed::Box;\n".toList

/-- Lines 71-73: delete every occurrence of the Box import line when
neither the substring Box< nor the substring Box:: occurs in the text. -/
def boxImportStage (content : List Char) : List Char :=
  if !(pyIn "Box<".toList content) && !(pyIn "Box::".toList content) then
    runSub (mLit boxImportLine []) content
  else content

/--
Line 76: a grouped ast import containing AstPool, deleted whole.  The
two greedy non-close-brace runs together span exactly the characters
up to the first close brace, so the regex matches exactly when that
span contains AstPool; the optional semicolon then a newline follow.
-/
def mAstImportLine : Matcher := fun _ l =>
  match dropLit "use crate::".toList l with
  | some r1 =>
    let r1b := match dropLit "lpscript::".toList r1 with
      | some x => x
      | none => r1
    match dropLit "compiler::ast::\x7b".toList r1b with
    | some r2 =>
      let seg := r2.takeWhile (fun c => !(c == '\x7d'))
      if pyIn "AstPool".toList seg then
        match r2.drop seg.length with
        | '\x7d' :: r4 =>
          let r5 := match r4 with
            | ';' :: x => x
            | _ => r4
          match r5 with
          | '\n' :: r6 => some ([], r6)
          | _ => none
        | _ => none
      else none
    | none => none
  | none => none

/-- Lines 77-79: comma, optional whitespace, then a bare name, deleted.
No word boundaries: the name may be a prefix of a longer identifier. -/
def mCommaName (name : List Char) : Matcher := fun _ l =>
  match l with
  | ',' :: r1 =>
    match dropLit name (r1.dropWhile isPySpace) with
    | some r2 => some ([], r2)
    | none => none
  | _ => none

/-- Lines 29-77 of process_file: everything before the two late
substitutions of lines 78-79. -/
def beforeLate (t : List Char) : List Char :=
  runSubs [mAstImportLine, mCommaName "AstPool".toList]
    (boxImportStage (importAddStage t (rulesStage t)))

/-- The full content transformation of process_file (lines 29-79). -/
def transformContent (t : List Char) : List Char :=
  runSubs [mCommaName "ExprId".toList, mCommaName "StmtId".toList] (beforeLate t)

/-- The same Pass with the two late substitutions of lines 78-79
removed.  This definition follows the wording of the refinement claim
C10 (the comparison object), not the source. -/
def transformContentNoLate (t : List Char) : List Char :=
  beforeLate t

/-- String-level wrapper for concrete examples. -/
def pass1 (s : String) : String := String.mk (transformContent s.data)

/-- process_file write decision (lines 81-86): the new content and
whether the file was written (it is written exactly when the content
changed; an unchanged file is left untouched on disk). -/
def process_file (t : List Char) : List Char × Bool :=
  let c := transformContent t
  if c == t then (t, false) else (c, true)

end AstpoolToLpbox

/-!
## Pass 2: src/scripts/fix_gen_signatures.py, fix_gen_file
-/

namespace FixGenSignatures

/-- Line 16: comma, optional whitespace, pool: with optional
whitespace, then the reference type of the pool; deleted. -/
def mCommaPoolRef : Matcher := fun _ l =>
  match l with
  | ',' :: r0 =>
    match dropLit "pool:".toList (r0.dropWhile isPySpace) with
    | some r1 =>
      match dropLit "&AstPool".toList (r1.dropWhile isPySpace) with
      | some r2 => some ([], r2)
      | none => none
    | none => none
  | _ => none

/-- Line 17: open paren, pool: &AstPool, comma; replaced by the open paren. -/
def mParenPoolRefComma : Matcher := fun _ l =>
  match dropLit "(pool:".toList l with
  | some r1 =>
    match dropLit "&AstPool,".toList (r1.dropWhile isPySpace) with
    | some r2 => some ("(".toList, r2)
    | none => none
  | none => none

/-- Does the last character of the matched pattern sit on a word
boundary against the rest of the text?  The trailing backslash-b of
the parameter rules: a boundary holds when exactly one of the two
neighbouring characters is a word character (end of text counts as a
non-word character). -/
def trailBoundary (lastOfPat : Char) (rest : List Char) : Bool :=
  match rest with
  | [] => isWordChar lastOfPat
  | c :: _ => isWordChar lastOfPat != isWordChar c

/-- Lines 20-36: one parameter-rename rule.  Word boundary, the
parameter name, a colon, optional whitespace, the parameter type,
trailing word boundary judged from the type's final character; the
whole match is replaced by the given replacement. -/
def mParamRule (pname ptype repl : List Char) : Matcher := fun prev l =>
  if boundaryBefore prev then
    match dropLit (pname ++ ":".toList) l with
    | some r1 =>
      match dropLit ptype (r1.dropWhile isPySpace) with
      | some r2 =>
        match ptype.reverse with
        | [] => none
        | lastc :: _ => if trailBoundary lastc r2 then some (repl, r2) else none
      | none => none
    | none => none
  else none

/--
Line 39: word-bounded gen_ then a greedy word run ending in _id (the
trailing word boundary forces _id to be the run's final three
characters, and the captured group, the run minus that suffix, must be
nonempty); replaced by gen_ plus the captured group.
-/
def mGenIdSuffix : Matcher := fun prev l =>
  if boundaryBefore prev then
    match dropLit "gen_".toList l with
    | some r1 =>
      let w := r1.takeWhile isWordChar
      if 4 ≤ w.length && w.reverse.take 3 == "di_".toList then
        some ("gen_".toList ++ w.take (w.length - 3), r1.drop w.length)
      else none
    | none => none
  else none

/-- Lines 43-44: the call-site rewrite, literal head plus trailing
optional whitespace, replaced by the pool-free call head. -/
def mCallSite (oldHead newHead : List Char) : Matcher := fun _ l =>
  match dropLit oldHead l with
  | some r1 => some (newHead, r1.dropWhile isPySpace)
  | none => none

/-- The ordered parameter-rename table of lines 20-36. -/
def paramRules : List (List Char × List Char × List Char) :=
  [ ("left".toList, "ExprId".toList, "left: &Expr".toList)
  , ("right".toList, "ExprId".toList, "right: &Expr".toList)
  , ("operand".toList, "ExprId".toList, "operand: &Expr".toList)
  , ("expr_id".toList, "ExprId".toList, "expr: &Expr".toList)
  , ("expr".toList, "ExprId".toList, "expr: &Expr".toList)
  , ("condition".toList, "ExprId".toList, "condition: &Expr".toList)
  , ("true_expr".toList, "ExprId".toList, "true_expr: &Expr".toList)
  , ("false_expr".toList, "ExprId".toList, "false_expr: &Expr".toList)
  , ("value".toList, "ExprId".toList, "value: &Expr".toList)
  , ("stmt_id".toList, "StmtId".toList, "stmt: &Stmt".toList)
  , ("stmt".toList, "StmtId".toList, "stmt: &Stmt".toList)
  , ("body".toList, "StmtId".toList, "body: &Stmt".toList)
  , ("then_stmt".toList, "StmtId".toList, "then_stmt: &Stmt".toList)
  , ("else_stmt".toList, "Option<StmtId>".toList, "else_stmt: Option<&Stmt>".toList)
  , ("init".toList, "&Option<StmtId>".toList, "init: Option<&Stmt>".toList)
  , ("args".toList, "&Vec<ExprId>".toList, "args: &Vec<Expr>".toList)
  , ("args".toList, "&[ExprId]".toList, "args: &[Expr]".toList) ]

/-- The ordered substitution list of fix_gen_file (lines 15-48). -/
def ruleList : List Matcher :=
  [mCommaPoolRef, mParenPoolRefComma]
  ++ paramRules.map (fun r => mParamRule r.1 r.2.1 r.2.2)
  ++ [ mGenIdSuffix
     , mCallSite "self.gen_expr_id(pool,".toList "self.gen_expr(".toList
     , mCallSite "self.gen_stmt_id(pool,".toList "self.gen_stmt(".toList
     , AstpoolToLpbox.mPoolCall "expr".toList
     , AstpoolToLpbox.mPoolCall "stmt".toList ]

/-- The content transformation of fix_gen_file (lines 15-48), rules in
source order; returns the new content. -/
def transformContent (t : List Char) : List Char := runSubs ruleList t

/-- fix_gen_file (line 50): returns whether the content changed,
together with the new content. -/
def fix_gen_file (t : List Char) : Bool × List Char :=
  let c := transformContent t
  (!(c == t), c)

/-- String-level wrapper for concrete examples. -/
def pass2 (s : String) : Bool × String :=
  let r := fix_gen_file s.data
  (r.1, String.mk r.2)

end FixGenSignatures

/-!
## Pass 3: src/scripts/fix_imports.py, fix_imports
-/

namespace FixImports

/-- Line 13: comma, AstPool, comma (whitespace allowed around the
name); replaced by a comma and one space. -/
def mCommaAstPoolComma : Matcher := fun _ l =>
  match l with
  | ',' :: r0 =>
    match dropLit "AstPool".toList (r0.dropWhile isPySpace) with
    | some r1 =>
      match r1.dropWhile isPySpace with
      | ',' :: r2 => some (", ".toList, r2)
      | _ => none
    | none => none
  | _ => none

/-- Line 14: comma, AstPool, close brace; replaced by the close brace. -/
def mCommaAstPoolBrace : Matcher := fun _ l =>
  match l with
  | ',' :: r0 =>
    match dropLit "AstPool".toList (r0.dropWhile isPySpace) with
    | some r1 =>
      match r1.dropWhile isPySpace with
      | '\x7d' :: r2 => some ("\x7d".toList, r2)
      | _ => none
    | none => none
  | _ => none

/-- Line 15: open brace, AstPool, comma; replaced by the open brace. -/
def mBraceAstPoolComma : Matcher := fun _ l =>
  match l with
  | '\x7b' :: r0 =>
    match dropLit "AstPool".toList (r0.dropWhile isPySpace) with
    | some r1 =>
      match r1.dropWhile isPySpace with
      | ',' :: r2 => some ("\x7b".toList, r2)
      | _ => none
    | none => none
  | _ => none

/-- Line 16: a whole use line importing only AstPool from the ast
module (use, whitespace, the module path, braces around AstPool with
optional inner whitespace, optional semicolon, newline); deleted. -/
def mUseAstPoolLine : Matcher := fun _ l =>
  match dropLit "use".toList l with
  | some r0 =>
    let r1 := r0.dropWhile isPySpace
    if r1.length < r0.length then
      match dropLit "crate::compiler::ast::\x7b".toList r1 with
      | some r2 =>
        match dropLit "AstPool".toList (r2.dropWhile isPySpace) with
        | some r3 =>
          match r3.dropWhile isPySpace with
          | '\x7d' :: r4 =>
            let r5 := match r4 with
              | ';' :: x => x
              | _ => r4
            match r5 with
            | '\n' :: r6 => some ([], r6)
            | _ => none
          | _ => none
        | none => none
      | none => none
    else none
  | none => none

/--
The lookahead of lines 19 and 22, evaluated at the position just after
the matched identifier, with MULTILINE semantics: dot does not cross a
newline, so each alternative looks only at the remainder of the
current line.  It succeeds when that remainder contains a comma, or
contains a close brace, or contains a semicolon followed (within the
line) only by whitespace.
-/
def lookaheadOk (rest : List Char) : Bool :=
  let line := rest.takeWhile (fun c => !(c == '\n'))
  line.contains ',' || line.contains '\x7d' ||
    (let r := line.reverse
     r.contains ';' && (r.takeWhile (fun c => !(c == ';'))).all isPySpace)

/-- Line 19: word-bounded ExprId, in lookahead context, renamed Expr. -/
def mExprIdCtx : Matcher := fun prev l =>
  if boundaryBefore prev then
    match dropLit "ExprId".toList l with
    | some rest =>
      if boundaryAfterAt rest && lookaheadOk rest then some ("Expr".toList, rest)
      else none
    | none => none
  else none

/-- Line 22: word-bounded StmtId, in lookahead context, renamed Stmt. -/
def mStmtIdCtx : Matcher := fun prev l =>
  if boundaryBefore prev then
    match dropLit "StmtId".toList l with
    | some rest =>
      if boundaryAfterAt rest && lookaheadOk rest then some ("Stmt".toList, rest)
      else none
    | none => none
  else none

/-- The ordered substitution list of fix_imports (lines 13-22). -/
def ruleList : List Matcher :=
  [ mCommaAstPoolComma
  , mCommaAstPoolBrace
  , mBraceAstPoolComma
  , mUseAstPoolLine
  , mExprIdCtx
  , mStmtIdCtx ]

/-- The content transformation of fix_imports (lines 8-24), rules in
source order. -/
def transformContent (t : List Char) : List Char := runSubs ruleList t

/-- fix_imports (line 24): whether the content changed, and the new content. -/
def fix_imports (t : List Char) : Bool × List Char :=
  let c := transformContent t
  (!(c == t), c)

/-- String-level wrapper for concrete examples. -/
def pass3 (s : String) : Bool × String :=
  let r := fix_imports s.data
  (r.1, String.mk r.2)

end FixImports

/-!
## Entry points and file writing

The scripts' main blocks are modeled over an abstract file system: a
flag saying whether the configured root directory exists, and the
association list of file paths (relative to the root) to contents.
astpool_to_lpbox.main (lines 88-104) checks the root and calls
sys.exit(1) after a diagnostic when it is absent, before reading any
file.  fix_gen_signatures.main (lines 52-69) and the fix_imports main
block (lines 39-48) perform no such check; they iterate Path.glob /
Path.rglob, and pathlib's glob of a non-existent directory yields no
paths (its selector returns an empty iterator when the parent path is
not a directory), so with a missing root both loops run zero times and
the scripts finish normally with exit status 0, reporting zero files.
Every script writes a file only when its content changed.
-/

/-- Result of one script run: exit status, optional diagnostic, file
system after the run, and the reported count of modified files. -/
structure MainResult where
  exitCode : Nat
  errMsg : Option String
  filesAfter : List (List Char × List Char)
  modifiedCount : Nat
deriving DecidableEq

/-- Suffix test on paths. -/
def endsWithL (suf p : List Char) : Bool := suf.isSuffixOf p

/-- Run one pass over the files whose path satisfies the selector,
writing only changed files and counting them. -/
def runOver (sel : List Char → Bool) (tf : List Char → List Char)
    (files : List (List Char × List Char)) : List (List Char × List Char) × Nat :=
  (files.map (fun f => if sel f.1 && !(tf f.2 == f.2) then (f.1, tf f.2) else f),
   (files.filter (fun f => sel f.1 && !(tf f.2 == f.2))).length)

namespace AstpoolToLpbox

/-- main of astpool_to_lpbox.py (lines 88-104): abort with exit status
1 and a diagnostic before touching any file when the root is missing;
otherwise process every .rs file under the root. -/
def main (rootExists : Bool) (files : List (List Char × List Char)) : MainResult :=
  if !rootExists then
    ⟨1, some "Error: lp-script src not found", files, 0⟩
  else
    let r := runOver (endsWithL ".rs".toList) transformContent files
    ⟨0, none, r.1, r.2⟩

end AstpoolToLpbox

namespace FixGenSignatures

/-- main of fix_gen_signatures.py (lines 52-69): no root-existence
check; glob of a missing root yields nothing, so the run completes
normally with zero files fixed and the file system untouched. -/
def main (rootExists : Bool) (files : List (List Char × List Char)) : MainResult :=
  if rootExists then
    let sel := fun p => endsWithL "_gen.rs".toList p || endsWithL "_types.rs".toList p
    let r := runOver sel transformContent files
    ⟨0, none, r.1, r.2⟩
  else
    ⟨0, none, files, 0⟩

end FixGenSignatures

namespace FixImports

/-- The top-level block of fix_imports.py (lines 39-48): no
root-existence check; rglob of a missing root yields nothing, so the
run completes normally with zero files fixed. -/
def main (rootExists : Bool) (files : List (List Char × List Char)) : MainResult :=
  if rootExists then
    let r := runOver (endsWithL ".rs".toList) transformContent files
    ⟨0, none, r.1, r.2⟩
  else
    ⟨0, none, files, 0⟩

/-- process_file of fix_imports.py (lines 26-37): write only when
changed; report the change flag. -/
def process_file (t : List Char) : List Char × Bool :=
  let r := fix_imports t
  if r.1 then (r.2, true) else (t, false)

end FixImports

namespace FixGenSignatures

/-- The per-file body of main (lines 58-67): write only when the
change flag returned by fix_gen_file is set. -/
def process_file (t : List Char) : List Char × Bool :=
  let r := fix_gen_file t
  if r.1 then (r.2, true) else (t, false)

end FixGenSignatures

/-!
## Generic lemmas about the substitution engine
-/

theorem dropLit_eq_some {p l r : List Char} (h : dropLit p l = some r) : l = p ++ r := by
  induction p generalizing l with
  | nil => simpa [dropLit] using h
  | cons a ps ih =>
    cases l with
    | nil => simp [dropLit] at h
    | cons c cs =>
      by_cases hac : a == c
      · have hac' : a = c := by simpa using hac
        subst hac'
        simp only [dropLit, beq_self_eq_true, if_true] at h
        simpa using ih h
      · simp [dropLit, hac] at h

theorem runSubAux_eq_of_no_match (m : Matcher) :
    ∀ (fuel : Nat) (prev : Option Char) (l : List Char),
      hasMatchFrom m prev l = false → runSubAux m fuel prev l = l := by
  intro fuel
  induction fuel with
  | zero => intro prev l _; rfl
  | succ n ih =>
    intro prev l h
    cases l with
    | nil => rfl
    | cons c cs =>
      simp only [hasMatchFrom, Bool.or_eq_false_iff] at h
      obtain ⟨h1, h2⟩ := h
      rw [runSubAux]
      cases hm : m prev (c :: cs) with
      | none => rw [ih (some c) cs h2]
      | some pr => rw [hm] at h1; simp at h1

/-- A pattern with no match in a text: the substitution is the identity. -/
theorem runSub_eq_of_no_match {m : Matcher} {l : List Char}
    (h : hasMatchFrom m none l = false) : runSub m l = l :=
  runSubAux_eq_of_no_match m l.length none l h

theorem dropLit_append_some {p l r : List Char} (z : List Char)
    (h : dropLit p l = some r) : dropLit p (l ++ z) = some (r ++ z) := by
  induction p generalizing l with
  | nil => simp [dropLit] at h ⊢; simp [h]
  | cons a ps ih =>
    cases l with
    | nil => simp [dropLit] at h
    | cons c cs =>
      by_cases hac : a == c
      · simp only [dropLit, hac, if_true] at h
        simpa [dropLit, hac] using ih h
      · simp [dropLit, hac] at h

theorem pyIn_append_right {p l : List Char} (z : List Char)
    (h : pyIn p l = true) : pyIn p (l ++ z) = true := by
  induction l with
  | nil =>
    have hp : p = [] := by simpa [pyIn, List.isEmpty_iff] using h
    subst hp
    cases z with
    | nil => simp [pyIn]
    | cons c cs => simp [pyIn, dropLit]
  | cons c cs ih =>
    simp only [pyIn, Bool.or_eq_true] at h
    rcases h with h1 | h2
    · rcases Option.isSome_iff_exists.mp h1 with ⟨r, hr⟩
      have hz := dropLit_append_some z hr
      rw [List.cons_append] at hz
      simp [pyIn, hz]
    · simp [pyIn, ih h2]

theorem pyIn_append_left {p l : List Char} (x : List Char)
    (h : pyIn p l = true) : pyIn p (x ++ l) = true := by
  induction x with
  | nil => simpa using h
  | cons c cs ih =>
    simp [pyIn, ih]

/-- Replacing the leftmost occurrence of a nonempty literal pattern
splits the text around the replacement. -/
theorem runSubOnceFrom_mLit_split (pat repl : List Char) (hpat : pat ≠ []) :
    ∀ (prev : Option Char) (l : List Char), pyIn pat l = true →
      ∃ a b, runSubOnceFrom (mLit pat repl) prev l = a ++ repl ++ b := by
  intro prev l
  induction l generalizing prev with
  | nil =>
    intro h
    have hp : pat = [] := by simpa [pyIn, List.isEmpty_iff] using h
    exact absurd hp hpat
  | cons c cs ih =>
    intro h
    rw [runSubOnceFrom]
    cases hd : dropLit pat (c :: cs) with
    | some rest =>
      have hsplit : c :: cs = pat ++ rest := dropLit_eq_some hd
      have hlen : rest.length < (c :: cs).length := by
        rw [hsplit, List.length_append]
        have : 0 < pat.length := List.length_pos.mpr hpat
        omega
      simp only [mLit, hd, hlen, if_true]
      exact ⟨[], rest, rfl⟩
    | none =>
      have h2 : pyIn pat cs = true := by
        simp only [pyIn, hd, Option.isSome_none, Bool.false_or] at h
        exact h
      obtain ⟨a, b, hab⟩ := ih (some c) h2
      refine ⟨c :: a, b, ?_⟩
      simp only [mLit, hd, hab, List.cons_append]

theorem runSubs_eq_of_no_match {ms : List Matcher} {t : List Char}
    (h : ∀ m ∈ ms, hasMatchFrom m none t = false) : runSubs ms t = t := by
  induction ms with
  | nil => rfl
  | cons m rest ih =>
    have h1 : runSub m t = t := runSub_eq_of_no_match (h m (by simp))
    have hrest : ∀ m₂ ∈ rest, hasMatchFrom m₂ none t = false := by
      intro m₂ hm₂
      exact h m₂ (by simp [hm₂])
    show runSubs rest (runSub m t) = t
    rw [h1]
    exact ih hrest

/-!
## Fixpoint lemmas: a text that no pattern of a Pass matches is left
unchanged by that Pass.
-/

namespace AstpoolToLpbox

/-- Every pattern whose matches can change a file in Pass 1: the rule
table, the Box import line of the remove-if-unused directive, and
the import-list removals of lines 76-79.  (The add-if-missing directive of
lines 62-69 needs no entry: it only fires after the rule stage changed
the text.) -/
def allMatchers : List Matcher :=
  rulesList ++
    [ mLit boxImportLine []
    , mAstImportLine
    , mCommaName "AstPool".toList
    , mCommaName "ExprId".toList
    , mCommaName "StmtId".toList ]

/-- No pattern of Pass 1 matches anywhere in the text. -/
def noTrigger (t : List Char) : Bool :=
  allMatchers.all (fun m => !hasMatchFrom m none t)

theorem pass1_transform_eq_of_noTrigger {t : List Char} (H : noTrigger t = true) :
    transformContent t = t := by
  have Hall : ∀ m ∈ allMatchers, hasMatchFrom m none t = false := by
    intro m hm
    simpa using (List.all_eq_true.mp H) m hm
  have hrules : rulesStage t = t :=
    runSubs_eq_of_no_match (fun m hm => Hall m (List.mem_append_left _ hm))
  have himp : importAddStage t t = t := by simp [importAddStage]
  have hbox : boxImportStage t = t := by
    unfold boxImportStage
    split
    · exact runSub_eq_of_no_match (Hall _ (List.mem_append_right _ (by simp)))
    · rfl
  have hbl : beforeLate t = t := by
    unfold beforeLate
    rw [hrules, himp, hbox]
    refine runSubs_eq_of_no_match ?_
    intro m hm
    simp only [List.mem_cons, List.mem_singleton] at hm
    rcases hm with rfl | rfl | hm
    · exact Hall _ (List.mem_append_right _ (by simp))
    · exact Hall _ (List.mem_append_right _ (by simp))
    · simp at hm
  unfold transformContent
  rw [hbl]
  refine runSubs_eq_of_no_match ?_
  intro m hm
  simp only [List.mem_cons, List.mem_singleton] at hm
  rcases hm with rfl | rfl | hm
  · exact Hall _ (List.mem_append_right _ (by simp))
  · exact Hall _ (List.mem_append_right _ (by simp))
  · simp at hm

end AstpoolToLpbox

namespace FixGenSignatures

/-- No pattern of Pass 2 matches anywhere in the text. -/
def noTrigger (t : List Char) : Bool :=
  ruleList.all (fun m => !hasMatchFrom m none t)

theorem pass2_transform_eq_of_noTrigger {t : List Char} (H : noTrigger t = true) :
    transformContent t = t := by
  refine runSubs_eq_of_no_match ?_
  intro m hm
  simpa using (List.all_eq_true.mp H) m hm

end FixGenSignatures

namespace FixImports

/-- No pattern of Pass 3 matches anywhere in the text. -/
def noTrigger (t : List Char) : Bool :=
  ruleList.all (fun m => !hasMatchFrom m none t)

theorem pass3_transform_eq_of_noTrigger {t : List Char} (H : noTrigger t = true) :
    transformContent t = t := by
  refine runSubs_eq_of_no_match ?_
  intro m hm
  simpa using (List.all_eq_true.mp H) m hm

end FixImports

/-!
## Claims
-/

/--
C1, counterexample.  The claim states that every Pass is idempotent, in
particular on texts containing LpBox<Expr> produced by a first run.
False: the Box<Expr> rule of Pass 1 (line 34) is a plain substring
replacement, so the output LpBox<Expr> of a first run contains
Box<Expr> again and a second run rewrites it to LpLpBox<Expr> and
reports the file as modified.
-/
theorem c1_pass1_not_idempotent_cex :
    AstpoolToLpbox.pass1 "Box<Expr>" = "LpBox<Expr>" ∧
    AstpoolToLpbox.pass1 (AstpoolToLpbox.pass1 "Box<Expr>") = "LpLpBox<Expr>" ∧
    AstpoolToLpbox.pass1 (AstpoolToLpbox.pass1 "Box<Expr>") ≠ AstpoolToLpbox.pass1 "Box<Expr>" :=
  ⟨by decide, by decide, by decide⟩

/--
C1, amended.  A Pass applied to a text in which none of its patterns
matches leaves the text unchanged (so such a file is reported
unmodified on a re-run); unrestricted idempotence fails, as the
counterexample shows.
-/
theorem c1_no_trigger_fixpoint :
    (∀ t : List Char, AstpoolToLpbox.noTrigger t = true →
        AstpoolToLpbox.transformContent t = t) ∧
    (∀ t : List Char, FixGenSignatures.noTrigger t = true →
        FixGenSignatures.fix_gen_file t = (false, t)) ∧
    (∀ t : List Char, FixImports.noTrigger t = true →
        FixImports.fix_imports t = (false, t)) := by
  refine ⟨fun t H => AstpoolToLpbox.pass1_transform_eq_of_noTrigger H, fun t H => ?_, fun t H => ?_⟩
  · have h := FixGenSignatures.pass2_transform_eq_of_noTrigger H
    simp [FixGenSignatures.fix_gen_file, h]
  · have h := FixImports.pass3_transform_eq_of_noTrigger H
    simp [FixImports.fix_imports, h]

/-- Witness for C1 amended, at the fully migrated text fn main() (with braces). -/
theorem c1_no_trigger_fixpoint_witness :
    AstpoolToLpbox.transformContent "fn main() \x7b\x7d".toList = "fn main() \x7b\x7d".toList ∧
    FixGenSignatures.fix_gen_file "fn main() \x7b\x7d".toList = (false, "fn main() \x7b\x7d".toList) ∧
    FixImports.fix_imports "fn main() \x7b\x7d".toList = (false, "fn main() \x7b\x7d".toList) :=
  ⟨c1_no_trigger_fixpoint.1 _ (by decide),
   c1_no_trigger_fixpoint.2.1 _ (by decide),
   c1_no_trigger_fixpoint.2.2 _ (by decide)⟩

/--
C2, counterexample.  The claim states that Pass 1 turns the signature
fn f(mut pool: AstPool, x: ExprId) -> ExprId into fn f(x: Expr) -> Expr,
removing the leading parameter mut pool: AstPool.  False: the three
pool-parameter patterns of lines 43-45 cover a pool parameter after a
comma, and a first parameter only in the form (pool: AstPool without
mut, so a leading mut pool: AstPool survives (and the handle types are
still renamed).
-/
theorem c2_mut_pool_not_removed_cex :
    AstpoolToLpbox.pass1 "fn f(mut pool: AstPool, x: ExprId) -> ExprId"
      ≠ "fn f(x: Expr) -> Expr" := by decide

/--
C2, amended.  Pass 1 turns fn f(mut pool: AstPool, x: ExprId) -> ExprId
into fn f(mut pool: AstPool, x: Expr) -> Expr: the handle types are
renamed but a leading mut pool: AstPool parameter is not removed.  A
leading pool parameter without mut is removed, leaving the following
parameter's leading space behind, and a non-leading mut pool: AstPool
parameter (after a comma) is removed.
-/
theorem c2_amended_signature_rewrite :
    AstpoolToLpbox.pass1 "fn f(mut pool: AstPool, x: ExprId) -> ExprId"
      = "fn f(mut pool: AstPool, x: Expr) -> Expr" ∧
    AstpoolToLpbox.pass1 "fn f(pool: AstPool, x: ExprId) -> ExprId"
      = "fn f( x: Expr) -> Expr" ∧
    AstpoolToLpbox.pass1 "fn f(a: Expr, mut pool: AstPool, x: ExprId) -> ExprId"
      = "fn f(a: Expr, x: Expr) -> Expr" :=
  ⟨by decide, by decide, by decide⟩

/--
C3, code bug.  The claim (and the script's own comment at lines 41-42)
says call sites self.gen_expr_id(pool, left) become self.gen_expr(left)
with the pool argument removed.  The code cannot do this: the rule of
line 39 removing the _id suffix from gen_ function names runs first and
rewrites the call to self.gen_expr(pool, left), so the call-site rule
of line 43 no longer finds self.gen_expr_id( and the pool argument
stays.  The signature part of the claim does hold.
-/
theorem c3_call_site_pool_retained :
    FixGenSignatures.pass2 "self.gen_expr_id(pool, left)"
      = (true, "self.gen_expr(pool, left)") ∧
    FixGenSignatures.pass2
        "fn gen_add_id(&mut self, pool: &AstPool, left: ExprId, right: ExprId) \x7b self.gen_expr_id(pool, left); \x7d"
      = (true, "fn gen_add(&mut self, left: &Expr, right: &Expr) \x7b self.gen_expr(pool, left); \x7d") :=
  ⟨by decide, by decide⟩

/--
C4, counterexample.  The claim states that all three entry points abort
with a non-zero exit status and a diagnostic when the configured root
does not exist.  False for Pass 2 and Pass 3: fix_gen_signatures.py and
fix_imports.py contain no existence check; pathlib's glob over a
missing directory yields no paths, so both scripts run an empty loop
and finish normally with exit status 0 and no error message.
-/
theorem c4_pass23_no_abort_cex :
    (FixGenSignatures.main false []).exitCode = 0 ∧
    (FixGenSignatures.main false []).errMsg = none ∧
    (FixImports.main false []).exitCode = 0 ∧
    (FixImports.main false []).errMsg = none :=
  ⟨rfl, rfl, rfl, rfl⟩

/--
C4, amended.  Only Pass 1 (astpool_to_lpbox.py, lines 92-94) checks its
root: with a missing root it prints a diagnostic and exits with status
1 before touching any file.  Pass 2 and Pass 3 perform no check: with a
missing root their globs are empty and they complete normally with exit
status 0, zero files fixed, and the file system untouched.
-/
theorem c4_amended_root_missing :
    ∀ files : List (List Char × List Char),
      AstpoolToLpbox.main false files
        = ⟨1, some "Error: lp-script src not found", files, 0⟩ ∧
      FixGenSignatures.main false files = ⟨0, none, files, 0⟩ ∧
      FixImports.main false files = ⟨0, none, files, 0⟩ :=
  fun _ => ⟨rfl, rfl, rfl⟩

/--
C5, counterexample.  The claim states that whenever the transformed
text contains LpBox but not the literal import use lp_pool::LpBox,
the import is inserted (before the first use statement in the absence of
the extern crate alloc; anchor).  False: line 63 also requires that the
rules changed the file (content != original), so a file that already
uses LpBox but is otherwise untouched never receives the import even
though the claimed conditions hold.
-/
theorem c5_unchanged_file_no_import_cex :
    pyIn AstpoolToLpbox.lpboxLit "fn g() \x7b\x7d\nuse a;\nfn f(x: LpBox<Foo>) \x7b\x7d".toList = true ∧
    pyIn AstpoolToLpbox.impLit "fn g() \x7b\x7d\nuse a;\nfn f(x: LpBox<Foo>) \x7b\x7d".toList = false ∧
    pyIn AstpoolToLpbox.nlUseLit "fn g() \x7b\x7d\nuse a;\nfn f(x: LpBox<Foo>) \x7b\x7d".toList = true ∧
    AstpoolToLpbox.pass1 "fn g() \x7b\x7d\nuse a;\nfn f(x: LpBox<Foo>) \x7b\x7d"
      = "fn g() \x7b\x7d\nuse a;\nfn f(x: LpBox<Foo>) \x7b\x7d" :=
  ⟨by decide, by decide, by decide, by decide⟩

/--
C5, amended.  If the rule stage changed the text, the changed text
contains LpBox, lacks the literal import, and contains the anchor
extern crate alloc;, then the import directive inserts the import
statement (general part); on a concrete file the full Pass inserts it
exactly once, and a second run of the Pass adds no duplicate (the
literal import is then present, so the directive does not fire again).
-/
theorem c5_amended_import_insertion :
    (∀ t : List Char,
      AstpoolToLpbox.rulesStage t ≠ t →
      pyIn AstpoolToLpbox.impLit (AstpoolToLpbox.rulesStage t) = false →
      pyIn AstpoolToLpbox.lpboxLit (AstpoolToLpbox.rulesStage t) = true →
      pyIn AstpoolToLpbox.externLit (AstpoolToLpbox.rulesStage t) = true →
      pyIn AstpoolToLpbox.impLit
        (AstpoolToLpbox.importAddStage t (AstpoolToLpbox.rulesStage t)) = true) ∧
    AstpoolToLpbox.pass1 "extern crate alloc;\nfn f(x: ExprId) -> Box<Expr> \x7b Box::new(x) \x7d"
      = "extern crate alloc;\nuse lp_pool::LpBox;\nfn f(x: Expr) -> LpBox<Expr> \x7b LpBox::try_new(x) \x7d" ∧
    countOcc AstpoolToLpbox.impLit
      (AstpoolToLpbox.transformContent
        "extern crate alloc;\nfn f(x: ExprId) -> Box<Expr> \x7b Box::new(x) \x7d".toList) = 1 ∧
    countOcc AstpoolToLpbox.impLit
      (AstpoolToLpbox.transformContent (AstpoolToLpbox.transformContent
        "extern crate alloc;\nfn f(x: ExprId) -> Box<Expr> \x7b Box::new(x) \x7d".toList)) = 1 := by
  refine ⟨?_, by decide, by decide, by decide⟩
  intro t h1 h2 h3 h4
  have hbeq : (AstpoolToLpbox.rulesStage t == t) = false := by simp [h1]
  unfold AstpoolToLpbox.importAddStage
  rw [hbeq, h2, h3, h4]
  simp only [Bool.not_false, Bool.true_and, Bool.and_true, Bool.and_self, if_true]
  obtain ⟨a, b, hab⟩ :=
    runSubOnceFrom_mLit_split AstpoolToLpbox.externLit AstpoolToLpbox.externRepl
      (by decide) none (AstpoolToLpbox.rulesStage t) h4
  rw [hab, List.append_assoc]
  exact pyIn_append_left a
    (pyIn_append_right b (by decide : pyIn AstpoolToLpbox.impLit AstpoolToLpbox.externRepl = true))

/-- Witness for the general part of C5 amended. -/
theorem c5_amended_import_insertion_witness :
    AstpoolToLpbox.rulesStage "extern crate alloc;\nlet y = Box::new(x);".toList
      ≠ "extern crate alloc;\nlet y = Box::new(x);".toList ∧
    pyIn AstpoolToLpbox.impLit
      (AstpoolToLpbox.rulesStage "extern crate alloc;\nlet y = Box::new(x);".toList) = false ∧
    pyIn AstpoolToLpbox.lpboxLit
      (AstpoolToLpbox.rulesStage "extern crate alloc;\nlet y = Box::new(x);".toList) = true ∧
    pyIn AstpoolToLpbox.externLit
      (AstpoolToLpbox.rulesStage "extern crate alloc;\nlet y = Box::new(x);".toList) = true ∧
    pyIn AstpoolToLpbox.impLit
      (AstpoolToLpbox.importAddStage "extern crate alloc;\nlet y = Box::new(x);".toList
        (AstpoolToLpbox.rulesStage "extern crate alloc;\nlet y = Box::new(x);".toList)) = true :=
  ⟨by decide, by decide, by decide, by decide,
   c5_amended_import_insertion.1 _ (by decide) (by decide) (by decide) (by decide)⟩

/--
C6, counterexample.  The claim states that the import line
use alloc::boxed::Box; is deleted iff no bare-identifier Box and no Box
constructor call remains, occurrences inside longer identifiers such as
LpBox not counting.  False in both directions: the code (line 72)
tests the substrings Box< and Box:: only, so (first conjunct) a file
whose only remaining Box is the bare identifier in let b: Box = make();
still has its import deleted, and (second conjunct) a file whose only
Box occurrences sit inside LpBox<Foo> keeps the import, because
LpBox<Foo> contains the substring Box<.
-/
theorem c6_box_import_condition_cex :
    AstpoolToLpbox.pass1 "use alloc::boxed::Box;\nlet b: Box = make();"
      = "let b: Box = make();" ∧
    AstpoolToLpbox.pass1 "use alloc::boxed::Box;\nfn f(x: LpBox<Foo>) \x7b\x7d"
      = "use alloc::boxed::Box;\nfn f(x: LpBox<Foo>) \x7b\x7d" :=
  ⟨by decide, by decide⟩

/--
C6, amended.  The remove-if-unused directive is substring-based:
the import line is kept whenever Box< or Box:: occurs anywhere (even inside
a longer identifier such as LpBox), and when neither substring occurs
the directive deletes the exact import line wherever it matches.
-/
theorem c6_amended_substring_condition :
    (∀ t : List Char, (pyIn "Box<".toList t || pyIn "Box::".toList t) = true →
        AstpoolToLpbox.boxImportStage t = t) ∧
    (∀ t : List Char, pyIn "Box<".toList t = false → pyIn "Box::".toList t = false →
        AstpoolToLpbox.boxImportStage t
          = runSub (mLit AstpoolToLpbox.boxImportLine []) t) := by
  constructor
  · intro t h
    unfold AstpoolToLpbox.boxImportStage
    rcases Bool.or_eq_true_iff.mp h with h1 | h1 <;> rw [h1] <;> simp
  · intro t h1 h2
    unfold AstpoolToLpbox.boxImportStage
    rw [h1, h2]
    simp

/-- Witness for C6 amended: both directions at concrete texts. -/
theorem c6_amended_substring_condition_witness :
    AstpoolToLpbox.boxImportStage "fn f(x: LpBox<Foo>) \x7b\x7d".toList
      = "fn f(x: LpBox<Foo>) \x7b\x7d".toList ∧
    AstpoolToLpbox.boxImportStage "use alloc::boxed::Box;\nfn ok() \x7b\x7d\n".toList
      = runSub (mLit AstpoolToLpbox.boxImportLine [])
          "use alloc::boxed::Box;\nfn ok() \x7b\x7d\n".toList :=
  ⟨c6_amended_substring_condition.1 _ (by decide),
   c6_amended_substring_condition.2 _ (by decide) (by decide)⟩

/--
C7, code bug.  The claim (and the script's docstring and comments) says
Pass 3 normalizes import lists only, leaving every non-import line
byte-for-byte unchanged.  The lookahead of line 19 only requires a
comma, a close brace, or a line-ending semicolon later on the same
line, so the pass rewrites ExprId in this ordinary function signature,
which is not an import statement.
-/
theorem c7_non_import_line_rewritten :
    FixImports.pass3 "fn f(a: ExprId, b: u32) \x7b\x7d\n"
      = (true, "fn f(a: Expr, b: u32) \x7b\x7d\n") := by decide

/--
C8, confirmed.  For each of the three Passes, a file whose content is
left verbatim unchanged by the Pass's rules and import directives is
reported as unmodified (flag false) and is not written: the returned
content is the original text (so its on-disk bytes and metadata are
untouched, the write branch being skipped).
-/
theorem c8_unchanged_not_written :
    (∀ t : List Char, AstpoolToLpbox.transformContent t = t →
        AstpoolToLpbox.process_file t = (t, false)) ∧
    (∀ t : List Char, FixGenSignatures.transformContent t = t →
        FixGenSignatures.process_file t = (t, false)) ∧
    (∀ t : List Char, FixImports.transformContent t = t →
        FixImports.process_file t = (t, false)) := by
  refine ⟨fun t h => ?_, fun t h => ?_, fun t h => ?_⟩
  · simp [AstpoolToLpbox.process_file, h]
  · simp [FixGenSignatures.process_file, FixGenSignatures.fix_gen_file, h]
  · simp [FixImports.process_file, FixImports.fix_imports, h]

/-- Witness for C8 at a text none of the Passes changes. -/
theorem c8_unchanged_not_written_witness :
    AstpoolToLpbox.process_file "fn main() \x7b\x7d".toList
      = ("fn main() \x7b\x7d".toList, false) ∧
    FixGenSignatures.process_file "fn main() \x7b\x7d".toList
      = ("fn main() \x7b\x7d".toList, false) ∧
    FixImports.process_file "fn main() \x7b\x7d".toList
      = ("fn main() \x7b\x7d".toList, false) :=
  ⟨c8_unchanged_not_written.1 _ (by decide),
   c8_unchanged_not_written.2.1 _ (by decide),
   c8_unchanged_not_written.2.2 _ (by decide)⟩

/--
C9, counterexample.  The claim states that every renaming rule of
Pass 1 matches whole identifiers only, so identifiers merely containing
Box are untouched.  False: the Box rules of lines 34-38 are plain
substring replacements without word boundaries, so the identifier MyBox
in MyBox<Expr> is rewritten to MyLpBox.
-/
theorem c9_box_substring_rewritten_cex :
    AstpoolToLpbox.pass1 "MyBox<Expr>" = "MyLpBox<Expr>" := by decide

/--
C9, amended.  The ExprId and StmtId renaming rules of lines 30-31 use
word boundaries and leave identifiers that merely contain them (such as
SubExprIdExtra) untouched, while renaming whole-identifier occurrences;
the Box rules of lines 34-38 are plain substring replacements and do
rewrite occurrences inside longer identifiers (MyBox<Stmt> becomes
MyLpBox<Stmt>).
-/
theorem c9_amended_word_boundary :
    AstpoolToLpbox.pass1 "fn g(x: SubExprIdExtra) -> SubExprIdExtra"
      = "fn g(x: SubExprIdExtra) -> SubExprIdExtra" ∧
    AstpoolToLpbox.pass1 "(a: ExprId)" = "(a: Expr)" ∧
    AstpoolToLpbox.pass1 "MyBox<Stmt>" = "MyLpBox<Stmt>" :=
  ⟨by decide, by decide, by decide⟩

/--
C10, counterexample.  The claim states that on inputs where ExprId and
StmtId occur only as whole identifiers, the late substitutions of
lines 78-79 never fire, making Pass 1 equivalent to the Pass without
them.  False: the pool-parameter removal of line 43 has no trailing
word boundary, so on (ExprId, Expr, pool: AstPoolId) it deletes
, pool: AstPool and glues Expr to the leftover Id, re-creating a
, ExprId occurrence that line 78 then deletes: the full Pass yields
(Expr) while the Pass without lines 78-79 yields (Expr, ExprId).
-/
theorem c10_late_rules_fire_cex :
    wholeIdentOnly "ExprId".toList "(ExprId, Expr, pool: AstPoolId)".toList = true ∧
    wholeIdentOnly "StmtId".toList "(ExprId, Expr, pool: AstPoolId)".toList = true ∧
    AstpoolToLpbox.pass1 "(ExprId, Expr, pool: AstPoolId)" = "(Expr)" ∧
    AstpoolToLpbox.transformContentNoLate "(ExprId, Expr, pool: AstPoolId)".toList
      = "(Expr, ExprId)".toList ∧
    AstpoolToLpbox.transformContent "(ExprId, Expr, pool: AstPoolId)".toList
      ≠ AstpoolToLpbox.transformContentNoLate "(ExprId, Expr, pool: AstPoolId)".toList :=
  ⟨by decide, by decide, by decide, by decide, by decide⟩

/--
C10, amended.  The two late substitutions of lines 78-79 are exactly
the identity on texts reaching them with no comma-ExprId and no
comma-StmtId match, and then (only then) Pass 1 coincides with the Pass
with those two rules removed; earlier rules can re-create such a match
even when the input contains the handle names only as whole
identifiers, as the counterexample shows.
-/
theorem c10_amended_no_late_match :
    ∀ t : List Char,
      hasMatchFrom (AstpoolToLpbox.mCommaName "ExprId".toList) none
        (AstpoolToLpbox.beforeLate t) = false →
      hasMatchFrom (AstpoolToLpbox.mCommaName "StmtId".toList) none
        (AstpoolToLpbox.beforeLate t) = false →
      AstpoolToLpbox.transformContent t = AstpoolToLpbox.transformContentNoLate t := by
  intro t h1 h2
  unfold AstpoolToLpbox.transformContent AstpoolToLpbox.transformContentNoLate
  simp only [runSubs, List.foldl]
  rw [runSub_eq_of_no_match h1, runSub_eq_of_no_match h2]

/-- Witness for C10 amended at a migrated text. -/
theorem c10_amended_no_late_match_witness :
    AstpoolToLpbox.transformContent "fn ok(a: Expr) \x7b\x7d".toList
      = AstpoolToLpbox.transformContentNoLate "fn ok(a: Expr) \x7b\x7d".toList :=
  c10_amended_no_late_match _ (by decide) (by decide)

/-- Witness for C4 amended at a one-file tree. -/
theorem c4_amended_root_missing_witness :
    AstpoolToLpbox.main false [("a.rs".toList, "fn main() \x7b\x7d".toList)]
      = ⟨1, some "Error: lp-script src not found",
          [("a.rs".toList, "fn main() \x7b\x7d".toList)], 0⟩ ∧
    FixGenSignatures.main false [("a.rs".toList, "fn main() \x7b\x7d".toList)]
      = ⟨0, none, [("a.rs".toList, "fn main() \x7b\x7d".toList)], 0⟩ ∧
    FixImports.main false [("a.rs".toList, "fn main() \x7b\x7d".toList)]
      = ⟨0, none, [("a.rs".toList, "fn main() \x7b\x7d".toList)], 0⟩ :=
  c4_amended_root_missing _
